import Mathlib

/-!
Shallow embedding of the `errcode` Go package (pingcap/errcode).

The embedding translates the package's data model and operations:
* `Code` / `CodeStr`: hierarchical error codes with an optional parent.
* `MetaData`: a map from a code's identifier to an attached value,
  with ancestor-inheriting lookup (`MetaDataFromAncestors`) and
  conflict-detecting registration (`SetMetaData`), plus the HTTP
  registry built on it (`SetHTTP` / `HTTPCode`).
* `GoError`: the universe of error values relevant to the claims —
  plain errors, custom errors carrying a code (user types implementing
  the `ErrorCode` interface), `CodedError` wrappers and `StackCode`
  wrappers — together with the constructors `NewCodedError`,
  `NewInternalErr`, `NewUnimplementedErr` and the client-data
  extraction.

Go's `panic` is modelled by returning `none` (for constructors) or by
an `Except`/`Option` layer (for setup-time registration); Go's map
mutation is modelled by explicit state passing.  Parts of the package
whose source is not available (the core `Code` registry, `IsAncestor`,
`ClientData`, `StackCode`, `Combine`) are modelled from the
specification; each such definition says so in its doc comment.
-/

set_option autoImplicit false

namespace Errcode

/-- `CodeStr` is the string identifier of a code (Go: `type CodeStr string`). -/
abbrev CodeStr := String

/-- A `Code` is a node in a forest of code hierarchies.

Modelled from the spec: a code holds its `CodeStr` and an optional
parent code (`nil` for roots); the parent link is immutable and the
ancestor chain is acyclic by construction.  A root carries no parent,
a child carries its parent code. -/
inductive Code : Type where
  | root (codeStr : CodeStr)
  | child (parent : Code) (codeStr : CodeStr)
  deriving DecidableEq

/-- The identifier stored at this node (Go: `func (code Code) CodeStr() CodeStr`).
Call sites of `Child` in the source pass the full dotted path
(e.g. `"internal.unimplemented"`), so the stored string is the identifier. -/
def Code.CodeStr : Code → CodeStr
  | .root s => s
  | .child _ s => s

/-- The optional parent of a code (Go: the `Parent *Code` field). -/
def Code.parentCode : Code → Option Code
  | .root _ => none
  | .child p _ => some p

/-- Modelled from the spec: `NewCode(str)` creates a root code.
(The registration/uniqueness aspect is modelled separately by
`NewCodeReg`.) -/
def NewCode (codeStr : CodeStr) : Code := Code.root codeStr

/-- Modelled from the spec: `Child(childStr)` creates a new code whose
parent is the receiver.  (Registration modelled separately by `ChildReg`.) -/
def Code.Child (code : Code) (childStr : Errcode.CodeStr) : Code := Code.child code childStr

/-- Modelled from the spec: `IsAncestor(ancestorCode)` is true if
`ancestorCode` is the receiver itself or is found by walking the
receiver's parent chain upward. -/
def Code.IsAncestor (code ancestorCode : Code) : Bool :=
  code == ancestorCode ||
    match code with
    | .root _ => false
    | .child p _ => p.IsAncestor ancestorCode

/-! The built-in codes registered by the package's `var` block. -/

/-- `InternalCode = NewCode("internal")` (HTTP registration modelled in `httpInit`). -/
def InternalCode : Code := NewCode "internal"

/-- `NotFoundCode = NewCode("missing")`. -/
def NotFoundCode : Code := NewCode "missing"

/-- `UnimplementedCode = InternalCode.Child("internal.unimplemented")`. -/
def UnimplementedCode : Code := InternalCode.Child "internal.unimplemented"

/-- `StateCode = NewCode("state")`. -/
def StateCode : Code := NewCode "state"

/-- `AlreadyExistsCode = StateCode.Child("state.exists")`. -/
def AlreadyExistsCode : Code := StateCode.Child "state.exists"

/-- `OutOfRangeCode = StateCode.Child("state.range")` (no `SetHTTP` call). -/
def OutOfRangeCode : Code := StateCode.Child "state.range"

/-- `InvalidInputCode = NewCode("input")`. -/
def InvalidInputCode : Code := NewCode "input"

/-- `AuthCode = NewCode("auth")` (no `SetHTTP` call). -/
def AuthCode : Code := NewCode "auth"

/-- `NotAuthenticatedCode = AuthCode.Child("auth.unauthenticated")`. -/
def NotAuthenticatedCode : Code := AuthCode.Child "auth.unauthenticated"

/-- `ForbiddenCode = AuthCode.Child("auth.forbidden")`. -/
def ForbiddenCode : Code := AuthCode.Child "auth.forbidden"

/-! ## MetaData store (metadata.go) -/

/-- `MetaData` is a map from `CodeStr` to an attached value
(Go: `type MetaData map[CodeStr]interface{}`), modelled as an
association list keyed by the identifier; `SetMetaData` never inserts a
duplicate key, so lookup order is immaterial. -/
abbrev MetaData (α : Type) := List (CodeStr × α)

/-- `MetaDataFromAncestors` looks for meta data starting at the current
code; if not found it traverses up the hierarchy to the first ancestor
with the given metadata key, returning `none` at a root with no match. -/
def Code.MetaDataFromAncestors {α : Type} (code : Code) (metaData : MetaData α) :
    Option α :=
  match metaData.lookup code.CodeStr with
  | some existing => some existing
  | none =>
    match code with
    | .root _ => none
    | .child p _ => p.MetaDataFromAncestors metaData
termination_by structural code

/-- Go's `existingCodeError`: the conflict error returned by
`SetMetaData`, naming the previously stored value and the code. -/
structure existingCodeError (α : Type) where
  existingMetaData : α
  code : Code
  deriving DecidableEq

/-- `SetMetaData` registers `item` for the receiver code's identifier.
It returns the conflict error if the metadata is already set (the map is
then returned unchanged by the `Except.error` branch — Go returns early
without mutating), otherwise the updated map. -/
def Code.SetMetaData {α : Type} (code : Code) (metaData : MetaData α) (item : α) :
    Except (existingCodeError α) (MetaData α) :=
  match metaData.lookup code.CodeStr with
  | some existingCode =>
    .error { existingMetaData := existingCode, code := code }
  | none => .ok ((code.CodeStr, item) :: metaData)

/-- `SetHTTP` adds an HTTP code to the meta data, panicking (here:
`Except.error`) if the metadata is already set for the code. -/
def Code.SetHTTP (code : Code) (metaData : MetaData Nat) (httpCode : Nat) :
    Except (existingCodeError Nat) (MetaData Nat) :=
  code.SetMetaData metaData httpCode

/-- The `var` block of codes.go performs these `SetHTTP` registrations in
order on the initially empty `httpMetaData`; a conflict would panic at
initialization. -/
def httpInit : Except (existingCodeError Nat) (MetaData Nat) := do
  let md ← InternalCode.SetHTTP [] 500
  let md ← NotFoundCode.SetHTTP md 404
  let md ← UnimplementedCode.SetHTTP md 501
  let md ← StateCode.SetHTTP md 400
  let md ← AlreadyExistsCode.SetHTTP md 409
  let md ← InvalidInputCode.SetHTTP md 400
  let md ← NotAuthenticatedCode.SetHTTP md 401
  let md ← ForbiddenCode.SetHTTP md 403
  pure md

/-- The process-wide `httpMetaData` store after initialization. -/
def httpMetaData : MetaData Nat := httpInit.toOption.getD []

/-- `HTTPCode` retrieves the HTTP code for a code or its first ancestor
with an HTTP code, defaulting to 400 (`http.StatusBadRequest`). -/
def Code.HTTPCode (code : Code) : Nat :=
  match code.MetaDataFromAncestors httpMetaData with
  | none => 400
  | some httpCode => httpCode

/-! ## Error values (error_code.go) -/

/-- The universe of Go error values the claims are about.

* `plain msg`: an ordinary error that satisfies neither `ErrorCode` nor
  `HasClientData` nor `Causer` (e.g. `errors.New(msg)`).
* `custom code msg`: a user-defined error type that implements the
  `ErrorCode` interface by returning `code` from its `Code()` method
  (like `PathBlocked` in the README) but does not implement
  `HasClientData` or `Causer`.
* `coded GetCode Err`: the package's `CodedError{GetCode, Err}` struct.
* `stack Err skipLines`: modelled from the spec — the stack-capturing
  `StackCode` wrapper returned by `NewStackCode(err, skipLines)`; the
  stack trace itself is out of scope, classification and message
  delegate to the wrapped error. -/
inductive GoError : Type where
  | plain (msg : String)
  | custom (code : Code) (msg : String)
  | coded (GetCode : Code) (Err : GoError)
  | stack (Err : GoError) (skipLines : Nat)
  deriving DecidableEq

/-- The type assertion `err.(ErrorCode)` followed by `.Code()`: `some c`
when the error satisfies the `ErrorCode` interface with code `c`, `none`
when it does not.  `CodedError.Code()` returns the `GetCode` field;
`StackCode.Code()` (modelled from the spec) delegates to the wrapped
`ErrorCode`. -/
def GoError.code? : GoError → Option Code
  | .plain _ => none
  | .custom c _ => some c
  | .coded c _ => some c
  | .stack e _ => e.code?

/-- `Error()`: `CodedError.Error()` delegates to the wrapped error's
message; `StackCode` (modelled from the spec) likewise. -/
def GoError.Error : GoError → String
  | .plain m => m
  | .custom _ m => m
  | .coded _ e => e.Error
  | .stack e _ => e.Error

/-- The `Causer` capability: `CodedError.Cause()` returns the `Err`
field; the `StackCode` wrapper (modelled from the spec — annotations
expose the wrapped error via the Causer interface) returns its wrapped
error; plain and custom errors do not implement `Causer`. -/
def GoError.cause? : GoError → Option GoError
  | .plain _ => none
  | .custom _ _ => none
  | .coded _ e => some e
  | .stack e _ => some e

/-- Modelled from the spec: `ClientData(errCode)` returns the error's
`GetClientData()` if it satisfies `HasClientData`, otherwise the error
itself.  Among the modelled error shapes, `CodedError` and `StackCode`
implement `HasClientData` (the source asserts this for the types
embedding them); `CodedError.GetClientData` is inlined in the `coded`
case (see `CodedError_GetClientData`), and `StackCode`'s client data
delegates to its wrapped error. -/
def ClientData : GoError → GoError
  | .coded _ err =>
    match err.code? with
    | some _ => ClientData err
    | none => err
  | .stack err _ => ClientData err
  | e => e

/-- `CodedError.GetClientData` from the source: returns the client data
of the wrapped `Err` (via `ClientData`) when `Err` satisfies
`ErrorCode`, otherwise the wrapped `Err` itself.  Only the `Err` field
of the receiver is used, so it is the argument. -/
def CodedError_GetClientData (Err : GoError) : GoError :=
  match Err.code? with
  | some _ => ClientData Err
  | none => Err

/-- `NewCodedError(err, code)`: panics (modelled as `none`) if `err` is
nil (modelled as `Option.none` in the argument); if `err` is already an
`ErrorCode` its own code replaces the given one; the result is
`CodedError{GetCode: code, Err: err}`. -/
def NewCodedError : Option GoError → Code → Option GoError
  | none, _ => none
  | some err, defaultCode =>
    let code :=
      match err.code? with
      | some c => c
      | none => defaultCode
    some (.coded code err)

/-- Modelled from the spec: `NewStackCode(err, skipLines)` wraps an
`ErrorCode` while capturing a stack trace (stack capture itself is out
of scope). -/
def NewStackCode (err : GoError) (skipLines : Nat) : GoError :=
  .stack err skipLines

/-- The closure returned by `makeInternalStackCode(defaultCode)`: panics
(modelled as `none`) on a nil error; honours the wrapped error's own
code only when it is a descendant of `InternalCode`, otherwise uses
`defaultCode`; wraps the resulting `CodedError` in a stack-capturing
`StackCode` with 3 skipped lines. -/
def internalStackCodeFn (defaultCode : Code) : Option GoError → Option GoError
  | none => none
  | some err =>
    let code :=
      match err.code? with
      | some errCode =>
        if errCode.IsAncestor InternalCode then errCode else defaultCode
      | none => defaultCode
    some (NewStackCode (.coded code err) 3)

/-- `makeInternalStackCode(defaultCode)` panics (modelled as `none`) at
setup time unless `defaultCode` is a descendant of `InternalCode`,
otherwise returns the error-wrapping closure. -/
def makeInternalStackCode (defaultCode : Code) :
    Option (Option GoError → Option GoError) :=
  if defaultCode.IsAncestor InternalCode then some (internalStackCodeFn defaultCode)
  else none

/-- `var internalStackCode = makeInternalStackCode(InternalCode)`; were
the setup check to panic the program would never run, modelled by a
function that is never reached (`fun _ => none`). -/
def internalStackCode : Option GoError → Option GoError :=
  (makeInternalStackCode InternalCode).getD (fun _ => none)

/-- `var unimplementedStackCode = makeInternalStackCode(UnimplementedCode)`. -/
def unimplementedStackCode : Option GoError → Option GoError :=
  (makeInternalStackCode UnimplementedCode).getD (fun _ => none)

/-- `NewInternalErr(err)` returns `internalErr{internalStackCode(err)}`;
the `internalErr` struct only embeds the `StackCode`, adding no
behaviour. -/
def NewInternalErr (err : Option GoError) : Option GoError :=
  internalStackCode err

/-- `NewUnimplementedErr(err)` returns
`unimplementedErr{unimplementedStackCode(err)}`. -/
def NewUnimplementedErr (err : Option GoError) : Option GoError :=
  unimplementedStackCode err

/-! ## Code registration (modelled from the spec) -/

/-- Modelled from the spec: the process-wide registry of code
identifiers, consulted and extended by `NewCode` and `Child`. -/
abbrev Registry := List CodeStr

/-- Modelled from the spec: registering an identifier fails fast
(modelled as `none`, a fatal configuration error) when the identifier is
already registered, and otherwise records it — never silently
overwriting. -/
def registerCodeStr (reg : Registry) (s : CodeStr) : Option Registry :=
  if s ∈ reg then none else some (s :: reg)

/-- Modelled from the spec: `NewCode(str)` creates and registers a root
code, failing fast if `str` is already registered. -/
def NewCodeReg (reg : Registry) (s : CodeStr) : Option (Code × Registry) :=
  (registerCodeStr reg s).map (fun r => (NewCode s, r))

/-- Modelled from the spec: `Child(str)` creates and registers a code
whose parent is the receiver, with the same uniqueness rule. -/
def ChildReg (code : Code) (reg : Registry) (s : CodeStr) : Option (Code × Registry) :=
  (registerCodeStr reg s).map (fun r => (code.Child s, r))

/-! ## Combine (modelled from the spec) -/

/-- Modelled from the spec: the multi-error aggregate produced by
`Combine`, holding the full ordered list of original errors. -/
structure MultiErrCode where
  errs : List GoError
  deriving DecidableEq

/-- The code of the first error in the list that satisfies `ErrorCode`,
in argument order. -/
def firstCode : List GoError → Option Code
  | [] => none
  | e :: rest =>
    match e.code? with
    | some c => some c
    | none => firstCode rest

/-- Modelled from the spec: `Combine` accepts the errors in argument
order and produces a single aggregate value. -/
def Combine (errs : List GoError) : MultiErrCode := ⟨errs⟩

/-- Modelled from the spec: the aggregate's `Code()` reports the code of
its first constituent (in argument order) that has one, falling back to
the generic internal classification when none does. -/
def MultiErrCode.Code (m : MultiErrCode) : Code :=
  (firstCode m.errs).getD InternalCode

/-- Modelled from the spec: `Errors()` exposes the full ordered list of
original errors. -/
def MultiErrCode.Errors (m : MultiErrCode) : List GoError := m.errs

/-- Modelled from the spec: client-data extraction on the aggregate
returns the ordered sequence of each constituent's client data. -/
def MultiErrCode.GetClientData (m : MultiErrCode) : List GoError :=
  m.errs.map ClientData

/-! ## Helper lemmas -/

theorem MetaDataFromAncestors_root {α : Type} (s : CodeStr) (md : MetaData α) :
    (Code.root s).MetaDataFromAncestors md =
      match md.lookup s with
      | some v => some v
      | none => none := by
  rw [Code.MetaDataFromAncestors]; simp [Code.CodeStr]

theorem MetaDataFromAncestors_child {α : Type} (p : Code) (s : CodeStr)
    (md : MetaData α) :
    (Code.child p s).MetaDataFromAncestors md =
      match md.lookup s with
      | some v => some v
      | none => p.MetaDataFromAncestors md := by
  rw [Code.MetaDataFromAncestors]; simp [Code.CodeStr]

theorem MetaDataFromAncestors_of_lookup_some {α : Type} (code : Code)
    (md : MetaData α) (v : α) (h : md.lookup code.CodeStr = some v) :
    code.MetaDataFromAncestors md = some v := by
  cases code with
  | root s =>
    simp only [Code.CodeStr] at h
    simp [MetaDataFromAncestors_root, h]
  | child p s =>
    simp only [Code.CodeStr] at h
    simp [MetaDataFromAncestors_child, h]

theorem HTTPCode_def (code : Code) :
    code.HTTPCode =
      match code.MetaDataFromAncestors httpMetaData with
      | none => 400
      | some httpCode => httpCode := rfl

theorem SetMetaData_def {α : Type} (code : Code) (md : MetaData α) (item : α) :
    code.SetMetaData md item =
      match md.lookup code.CodeStr with
      | some existingCode =>
        .error { existingMetaData := existingCode, code := code }
      | none => .ok ((code.CodeStr, item) :: md) := rfl

theorem internalStackCode_eq :
    internalStackCode = internalStackCodeFn InternalCode := by
  have h : InternalCode.IsAncestor InternalCode = true := by decide
  simp [internalStackCode, makeInternalStackCode, h]

theorem unimplementedStackCode_eq :
    unimplementedStackCode = internalStackCodeFn UnimplementedCode := by
  have h : UnimplementedCode.IsAncestor InternalCode = true := by decide
  simp [unimplementedStackCode, makeInternalStackCode, h]

theorem internalStackCodeFn_some (defaultCode : Code) (err : GoError) :
    internalStackCodeFn defaultCode (some err) =
      some (GoError.stack
        (.coded
          (match err.code? with
           | some errCode =>
             if errCode.IsAncestor InternalCode then errCode else defaultCode
           | none => defaultCode)
          err)
        3) := rfl

theorem code_of_stackCodeFn (defaultCode : Code) (err : GoError) :
    (internalStackCodeFn defaultCode (some err)).bind GoError.code? =
      some
        (match err.code? with
         | some errCode =>
           if errCode.IsAncestor InternalCode then errCode else defaultCode
         | none => defaultCode) := rfl

end Errcode

namespace Errcode

/-- Claim C1: for every non-nil error `err` and code `D`,
`NewCodedError(err, D)` keeps `err`'s own code `E` when `err` already
satisfies `ErrorCode`, uses `D` when it does not, and stores `err`
itself as the wrapped error. -/
theorem claim_C1_NewCodedError (err : GoError) (D : Code) :
    (∀ E, err.code? = some E →
      NewCodedError (some err) D = some (.coded E err)) ∧
    (err.code? = none →
      NewCodedError (some err) D = some (.coded D err)) := by
  constructor
  · intro E hE
    simp [NewCodedError, hE]
  · intro h
    simp [NewCodedError, h]

/-- Witness for C1 at a coded custom error and at a plain error. -/
theorem claim_C1_NewCodedError_witness :
    GoError.code? (.custom StateCode "m") = some StateCode ∧
    NewCodedError (some (.custom StateCode "m")) NotFoundCode
      = some (.coded StateCode (.custom StateCode "m")) ∧
    GoError.code? (.plain "m") = none ∧
    NewCodedError (some (.plain "m")) NotFoundCode
      = some (.coded NotFoundCode (.plain "m")) :=
  ⟨rfl, (claim_C1_NewCodedError (.custom StateCode "m") NotFoundCode).1 StateCode rfl,
   rfl, (claim_C1_NewCodedError (.plain "m") NotFoundCode).2 rfl⟩

/-- Claim C8: `CodedError.Error()` returns exactly the wrapped error's
message, and `CodedError.Cause()` returns exactly the wrapped error. -/
theorem claim_C8_Error_Cause (GetCode : Code) (Err : GoError) :
    (GoError.coded GetCode Err).Error = Err.Error ∧
    (GoError.coded GetCode Err).cause? = some Err :=
  ⟨rfl, rfl⟩

/-- Claim C9: constructing a coded error from a nil error panics
(modelled as `none`) in `NewCodedError`, `NewInternalErr` and
`NewUnimplementedErr`; with a non-nil argument the panic branch is
unreachable (the constructors always return a value). -/
theorem claim_C9_nil_panics (c : Code) (err : GoError) :
    NewCodedError none c = none ∧
    NewInternalErr none = none ∧
    NewUnimplementedErr none = none ∧
    (NewCodedError (some err) c).isSome = true ∧
    (NewInternalErr (some err)).isSome = true ∧
    (NewUnimplementedErr (some err)).isSome = true := by
  refine ⟨rfl, ?_, ?_, rfl, ?_, ?_⟩
  · simp [NewInternalErr, internalStackCode_eq, internalStackCodeFn]
  · simp [NewUnimplementedErr, unimplementedStackCode_eq, internalStackCodeFn]
  · simp [NewInternalErr, internalStackCode_eq, internalStackCodeFn_some]
  · simp [NewUnimplementedErr, unimplementedStackCode_eq, internalStackCodeFn_some]

/-- Claim C2: `NewInternalErr(err)` (resp. `NewUnimplementedErr(err)`)
has `err`'s own code when that code is a descendant of the internal
family, and otherwise (unrelated code, or no code at all) the fixed
default `InternalCode` (resp. `UnimplementedCode`). -/
theorem claim_C2_internal_promotion (err : GoError) :
    (∀ E, err.code? = some E → E.IsAncestor InternalCode = true →
      (NewInternalErr (some err)).bind GoError.code? = some E ∧
      (NewUnimplementedErr (some err)).bind GoError.code? = some E) ∧
    (∀ E, err.code? = some E → E.IsAncestor InternalCode = false →
      (NewInternalErr (some err)).bind GoError.code? = some InternalCode ∧
      (NewUnimplementedErr (some err)).bind GoError.code? = some UnimplementedCode) ∧
    (err.code? = none →
      (NewInternalErr (some err)).bind GoError.code? = some InternalCode ∧
      (NewUnimplementedErr (some err)).bind GoError.code? = some UnimplementedCode) := by
  refine ⟨?_, ?_, ?_⟩
  · intro E hE hAnc
    constructor
    · rw [NewInternalErr, internalStackCode_eq, code_of_stackCodeFn, hE]
      simp [hAnc]
    · rw [NewUnimplementedErr, unimplementedStackCode_eq, code_of_stackCodeFn, hE]
      simp [hAnc]
  · intro E hE hAnc
    constructor
    · rw [NewInternalErr, internalStackCode_eq, code_of_stackCodeFn, hE]
      simp [hAnc]
    · rw [NewUnimplementedErr, unimplementedStackCode_eq, code_of_stackCodeFn, hE]
      simp [hAnc]
  · intro h
    constructor
    · rw [NewInternalErr, internalStackCode_eq, code_of_stackCodeFn, h]
    · rw [NewUnimplementedErr, unimplementedStackCode_eq, code_of_stackCodeFn, h]

/-- Witness for C2: an internal-family code is honoured, a not-found
code is replaced by the fixed default, and a codeless error gets the
fixed default. -/
theorem claim_C2_internal_promotion_witness :
    (NewInternalErr (some (.custom UnimplementedCode "x"))).bind GoError.code?
      = some UnimplementedCode ∧
    (NewInternalErr (some (.custom NotFoundCode "x"))).bind GoError.code?
      = some InternalCode ∧
    (NewUnimplementedErr (some (.custom NotFoundCode "x"))).bind GoError.code?
      = some UnimplementedCode ∧
    (NewUnimplementedErr (some (.plain "x"))).bind GoError.code?
      = some UnimplementedCode :=
  ⟨((claim_C2_internal_promotion (.custom UnimplementedCode "x")).1
      UnimplementedCode rfl (by decide)).1,
   ((claim_C2_internal_promotion (.custom NotFoundCode "x")).2.1
      NotFoundCode rfl (by decide)).1,
   ((claim_C2_internal_promotion (.custom NotFoundCode "x")).2.1
      NotFoundCode rfl (by decide)).2,
   ((claim_C2_internal_promotion (.plain "x")).2.2 rfl).2⟩

theorem stackCodeFn_code_in_family (defaultCode : Code)
    (hd : defaultCode.IsAncestor InternalCode = true)
    (err : Option GoError) (e : GoError)
    (h : internalStackCodeFn defaultCode err = some e) :
    ∃ c, e.code? = some c ∧ c.IsAncestor InternalCode = true := by
  match err with
  | none => simp [internalStackCodeFn] at h
  | some err =>
    rw [internalStackCodeFn_some] at h
    obtain rfl := Option.some_injective _ h
    refine ⟨_, rfl, ?_⟩
    match herr : err.code? with
    | none => simpa [herr] using hd
    | some errCode =>
      simp only [herr]
      split
      · assumption
      · exact hd

/-- Claim C10: every value returned by `NewInternalErr` or
`NewUnimplementedErr` carries a code lying in the internal family
(`IsAncestor InternalCode` holds for it); the fixed defaults are
`InternalCode` and its child `UnimplementedCode`, and
`makeInternalStackCode` panics at setup time (modelled as `none`)
whenever its default code lies outside the internal family. -/
theorem claim_C10_internal_family_invariant :
    (∀ d : Code, d.IsAncestor InternalCode = false →
      makeInternalStackCode d = none) ∧
    UnimplementedCode = InternalCode.Child "internal.unimplemented" ∧
    (makeInternalStackCode InternalCode).isSome = true ∧
    (makeInternalStackCode UnimplementedCode).isSome = true ∧
    (∀ err e, NewInternalErr err = some e →
      ∃ c, e.code? = some c ∧ c.IsAncestor InternalCode = true) ∧
    (∀ err e, NewUnimplementedErr err = some e →
      ∃ c, e.code? = some c ∧ c.IsAncestor InternalCode = true) := by
  refine ⟨?_, rfl, by decide, by decide, ?_, ?_⟩
  · intro d hd
    simp [makeInternalStackCode, hd]
  · intro err e h
    rw [NewInternalErr, internalStackCode_eq] at h
    exact stackCodeFn_code_in_family InternalCode (by decide) err e h
  · intro err e h
    rw [NewUnimplementedErr, unimplementedStackCode_eq] at h
    exact stackCodeFn_code_in_family UnimplementedCode (by decide) err e h

/-- Witness for C10: setup with a not-found default panics, and a
concrete `NewInternalErr` result carries an internal-family code. -/
theorem claim_C10_internal_family_invariant_witness :
    makeInternalStackCode NotFoundCode = none ∧
    (∃ c, (GoError.stack (.coded InternalCode (.plain "x")) 3).code? = some c ∧
      c.IsAncestor InternalCode = true) :=
  ⟨claim_C10_internal_family_invariant.1 NotFoundCode (by decide),
   claim_C10_internal_family_invariant.2.2.2.2.1 (some (.plain "x"))
     (GoError.stack (.coded InternalCode (.plain "x")) 3) rfl⟩

/-- Claim C3: `HTTPCode()` returns the HTTP value registered for the
code itself when present, otherwise the nearest ancestor's value
(a code with no entry of its own reports its parent's `HTTPCode`),
otherwise 400; in particular a child with no explicit HTTP metadata of
its own has its parent's `HTTPCode`. -/
theorem claim_C3_HTTPCode_inheritance (C : Code) :
    (∀ v, httpMetaData.lookup C.CodeStr = some v → C.HTTPCode = v) ∧
    (httpMetaData.lookup C.CodeStr = none → C.parentCode = none →
      C.HTTPCode = 400) ∧
    (∀ p, httpMetaData.lookup C.CodeStr = none → C.parentCode = some p →
      C.HTTPCode = p.HTTPCode) ∧
    (∀ s, httpMetaData.lookup (C.Child s).CodeStr = none →
      (C.Child s).HTTPCode = C.HTTPCode) := by
  refine ⟨?_, ?_, ?_, ?_⟩
  · intro v hv
    rw [HTTPCode_def, MetaDataFromAncestors_of_lookup_some C httpMetaData v hv]
  · intro hnone hparent
    cases C with
    | root s =>
      simp only [Code.CodeStr] at hnone
      simp [HTTPCode_def, MetaDataFromAncestors_root, hnone]
    | child p s => simp [Code.parentCode] at hparent
  · intro p hnone hparent
    cases C with
    | root s => simp [Code.parentCode] at hparent
    | child q s =>
      have hq : q = p := by simpa [Code.parentCode] using hparent
      subst hq
      simp only [Code.CodeStr] at hnone
      rw [HTTPCode_def, MetaDataFromAncestors_child, hnone, HTTPCode_def]
  · intro s hnone
    simp only [Code.Child, Code.CodeStr] at hnone
    show Code.HTTPCode (.child C s) = C.HTTPCode
    rw [HTTPCode_def, MetaDataFromAncestors_child, hnone, HTTPCode_def]

/-- Witness for C3: `UnimplementedCode` has its own entry 501,
`AuthCode` has no entry anywhere and defaults to 400, and
`OutOfRangeCode = StateCode.Child("state.range")` with no entry of its
own inherits `StateCode`'s HTTP code. -/
theorem claim_C3_HTTPCode_inheritance_witness :
    UnimplementedCode.HTTPCode = 501 ∧
    AuthCode.HTTPCode = 400 ∧
    (StateCode.Child "state.range").HTTPCode = StateCode.HTTPCode :=
  ⟨(claim_C3_HTTPCode_inheritance UnimplementedCode).1 501 rfl,
   (claim_C3_HTTPCode_inheritance AuthCode).2.1 rfl rfl,
   (claim_C3_HTTPCode_inheritance StateCode).2.2.2 "state.range" rfl⟩

/-- Claim C4: `SetMetaData` returns the conflict error naming the
previously stored value when the store already has a value for the
code's identifier (leaving the store unchanged — no updated store is
produced), and otherwise stores the value (visible under the code's
identifier, all other identifiers untouched) and returns nil. -/
theorem claim_C4_SetMetaData {α : Type} (M : MetaData α) (C : Code) (v : α) :
    (∀ old, M.lookup C.CodeStr = some old →
      C.SetMetaData M v = .error { existingMetaData := old, code := C }) ∧
    (M.lookup C.CodeStr = none →
      ∃ M2, C.SetMetaData M v = .ok M2 ∧
        M2.lookup C.CodeStr = some v ∧
        ∀ k, k ≠ C.CodeStr → M2.lookup k = M.lookup k) := by
  constructor
  · intro old hold
    rw [SetMetaData_def, hold]
  · intro hnone
    refine ⟨(C.CodeStr, v) :: M, ?_, ?_, ?_⟩
    · rw [SetMetaData_def, hnone]
    · simp [List.lookup]
    · intro k hk
      simp [List.lookup, beq_eq_false_iff_ne.mpr hk]

/-- Witness for C4 at the HTTP store of a single state entry: a second
registration for `StateCode` conflicts naming the prior 400, a first
registration for `AuthCode` succeeds. -/
theorem claim_C4_SetMetaData_witness :
    (StateCode.SetMetaData [("state", 400)] 409
      = .error { existingMetaData := 400, code := StateCode }) ∧
    (∃ M2, AuthCode.SetMetaData ([("state", 400)] : MetaData Nat) 401 = .ok M2 ∧
      M2.lookup AuthCode.CodeStr = some 401 ∧
      ∀ k, k ≠ AuthCode.CodeStr → M2.lookup k = List.lookup k [("state", 400)]) :=
  ⟨(claim_C4_SetMetaData [("state", 400)] StateCode 409).1 400 rfl,
   (claim_C4_SetMetaData [("state", 400)] AuthCode 401).2 rfl⟩

/-- Claim C5: code identifiers are globally unique — with an identifier
`s` already registered, both `NewCode(s)` and `Child(s)` on any code
fail fast (modelled as `none`) instead of creating a second code or
overwriting; with `s` unregistered both succeed and register it. -/
theorem claim_C5_unique_identifiers (reg : Registry) (s : CodeStr) (c : Code) :
    (s ∈ reg → NewCodeReg reg s = none ∧ ChildReg c reg s = none) ∧
    (s ∉ reg →
      NewCodeReg reg s = some (NewCode s, s :: reg) ∧
      ChildReg c reg s = some (c.Child s, s :: reg)) := by
  constructor
  · intro h
    constructor <;> simp [NewCodeReg, ChildReg, registerCodeStr, h]
  · intro h
    constructor <;> simp [NewCodeReg, ChildReg, registerCodeStr, h]

/-- Witness for C5: re-registering `"internal"` fails fast, registering
the fresh `"auth"` succeeds. -/
theorem claim_C5_unique_identifiers_witness :
    (NewCodeReg ["internal"] "internal" = none ∧
      ChildReg StateCode ["internal"] "internal" = none) ∧
    (NewCodeReg ["internal"] "auth" = some (NewCode "auth", ["auth", "internal"]) ∧
      ChildReg StateCode ["internal"] "auth"
        = some (StateCode.Child "auth", ["auth", "internal"])) :=
  ⟨(claim_C5_unique_identifiers ["internal"] "internal" StateCode).1 (by decide),
   (claim_C5_unique_identifiers ["internal"] "auth" StateCode).2 (by decide)⟩

theorem firstCode_append_of_none (pre l : List GoError)
    (h : ∀ x ∈ pre, x.code? = none) :
    firstCode (pre ++ l) = firstCode l := by
  induction pre with
  | nil => rfl
  | cons a rest ih =>
    have ha : a.code? = none := h a (by simp)
    simp only [List.cons_append, firstCode, ha]
    exact ih (fun x hx => h x (by simp [hx]))

theorem firstCode_of_all_none (l : List GoError)
    (h : ∀ x ∈ l, x.code? = none) : firstCode l = none := by
  induction l with
  | nil => rfl
  | cons a rest ih =>
    have ha : a.code? = none := h a (by simp)
    simp only [firstCode, ha]
    exact ih (fun x hx => h x (by simp [hx]))

/-- Claim C6: the aggregate built by `Combine` reports the code of the
first argument (in argument order) that satisfies `ErrorCode`, exposes
all original errors in argument order via `Errors()`, extracts every
constituent's client data in order, and falls back to the internal
classification when no argument carries a code. -/
theorem claim_C6_Combine (errs pre post : List GoError) (e : GoError) (c : Code) :
    (Combine errs).Errors = errs ∧
    (errs = pre ++ e :: post → (∀ x ∈ pre, x.code? = none) →
      e.code? = some c → (Combine errs).Code = c) ∧
    ((∀ x ∈ errs, x.code? = none) → (Combine errs).Code = InternalCode) ∧
    (Combine errs).GetClientData = errs.map ClientData := by
  refine ⟨rfl, ?_, ?_, rfl⟩
  · intro heq hpre hc
    subst heq
    show (firstCode (pre ++ e :: post)).getD InternalCode = c
    rw [firstCode_append_of_none pre (e :: post) hpre]
    simp [firstCode, hc]
  · intro h
    show (firstCode errs).getD InternalCode = InternalCode
    rw [firstCode_of_all_none errs h]
    rfl

/-- Witness for C6: `Combine(errA, errB)` where only `errB` has a code
reports `errB`'s code; an aggregate of codeless errors reports the
internal code. -/
theorem claim_C6_Combine_witness :
    (Combine [.plain "a", .custom StateCode "b"]).Errors
      = [.plain "a", .custom StateCode "b"] ∧
    (Combine [.plain "a", .custom StateCode "b"]).Code = StateCode ∧
    (Combine [.plain "a"]).Code = InternalCode :=
  ⟨(claim_C6_Combine [.plain "a", .custom StateCode "b"] [] []
      (.plain "a") StateCode).1,
   (claim_C6_Combine [.plain "a", .custom StateCode "b"] [.plain "a"] []
      (.custom StateCode "b") StateCode).2.1 rfl (by decide) rfl,
   (claim_C6_Combine [.plain "a"] [] [] (.plain "a") StateCode).2.2.1 (by decide)⟩

/-- Claim C7: `CodedError.GetClientData()` returns the client data of
the wrapped error, computed through `ClientData`, whenever the wrapped
error satisfies `ErrorCode`, and the wrapped error value itself
otherwise; in particular a coded wrapped error is unwrapped
recursively. -/
theorem claim_C7_GetClientData (Err : GoError) :
    (∀ c, Err.code? = some c → CodedError_GetClientData Err = ClientData Err) ∧
    (Err.code? = none → CodedError_GetClientData Err = Err) ∧
    (∀ c inner, Err = .coded c inner →
      CodedError_GetClientData Err = CodedError_GetClientData inner) := by
  refine ⟨?_, ?_, ?_⟩
  · intro c hc
    simp [CodedError_GetClientData, hc]
  · intro h
    simp [CodedError_GetClientData, h]
  · intro c inner heq
    subst heq
    show CodedError_GetClientData (.coded c inner) = CodedError_GetClientData inner
    rw [CodedError_GetClientData, CodedError_GetClientData]
    simp only [GoError.code?]
    rw [ClientData]

/-- Witness for C7: a doubly wrapped plain error yields the plain error
as client data; a `CodedError` around a plain error yields the plain
error itself. -/
theorem claim_C7_GetClientData_witness :
    GoError.code? (.coded StateCode (.plain "m")) = some StateCode ∧
    CodedError_GetClientData (.coded StateCode (.plain "m"))
      = ClientData (.coded StateCode (.plain "m")) ∧
    GoError.code? (.plain "m") = none ∧
    CodedError_GetClientData (.plain "m") = .plain "m" ∧
    CodedError_GetClientData (.coded StateCode (.coded InternalCode (.plain "m")))
      = CodedError_GetClientData (.coded InternalCode (.plain "m")) :=
  ⟨rfl,
   (claim_C7_GetClientData (.coded StateCode (.plain "m"))).1 StateCode rfl,
   rfl,
   (claim_C7_GetClientData (.plain "m")).2.1 rfl,
   (claim_C7_GetClientData (.coded StateCode (.coded InternalCode (.plain "m")))).2.2
     StateCode (.coded InternalCode (.plain "m")) rfl⟩

end Errcode
